import Mathlib

/-!
Shallow embedding of `src/batch/sonar.py` (class `ranger`): an acoustic
ranger with separate trigger and echo gpios, driven by pigpio edge
callbacks.  Machine integers are modelled as `Nat`/`Int`, Python floats as
exact rationals (`ℚ`), Python `None` as `Option.none`, and the asynchronous
environment of the polling loop in `read` as an explicit list of happenings
(edge deliveries and concurrent `cancel()` calls) consumed before the
3-second deadline fires.
-/

namespace PiGarden

/-- The two gpios the ranger uses.  In the source these are the configured
`TRIGGER` and `ECHO` pin numbers; the class dispatches on `gpio == self._trig`,
so only the trigger/echo role of a pin matters. -/
inductive Pin where
  | trig
  | echo
deriving DecidableEq

/-- pigpio pin mode constant `pigpio.INPUT` (0). -/
def PI_INPUT : Nat := 0

/-- pigpio pin mode constant `pigpio.OUTPUT` (1). -/
def PI_OUTPUT : Nat := 1

/-- The mutable state of a `ranger` instance together with the gpio
environment it controls:

* `ping` is `self._ping`, `high` is `self._high`, `time` is `self._time`,
  `triggered` is `self._triggered`, `inited` is `self._inited`;
* `trigModeOrig`/`echoModeOrig` are `self._trig_mode`/`self._echo_mode`,
  the pin modes captured by `pi.get_mode` at construction;
* `trigMode`/`echoMode` are the current modes of the two gpios;
* `trigCbOn`/`echoCbOn` record whether the edge callback registered on the
  trigger (resp. echo) gpio is still registered with pigpio;
* `cb` records which callback handle the attribute `self._cb` currently
  holds — `__init__` assigns `self._cb` twice, so after construction it
  holds the echo-pin handle and the trigger-pin handle is unreachable. -/
structure RState where
  ping : Bool
  high : Option Nat
  time : Option Int
  triggered : Bool
  trigModeOrig : Nat
  echoModeOrig : Nat
  trigMode : Nat
  echoMode : Nat
  trigCbOn : Bool
  echoCbOn : Bool
  cb : Pin
  inited : Bool
deriving DecidableEq

/-- `ranger.__init__(pi)`: capture the current modes of the trigger and echo
gpios (`trigOrig`, `echoOrig`), set the trigger gpio to `OUTPUT` and the echo
gpio to `INPUT`, register an either-edge callback on each gpio (storing both
handles, one after the other, into the single attribute `self._cb`, which
therefore ends up holding the echo-pin handle), and set `self._inited`.
`_ping` starts `False`, `_high` and `_time` start `None`, `_triggered`
starts `False`. -/
def initRanger (trigOrig echoOrig : Nat) : RState :=
  { ping := false
    high := none
    time := none
    triggered := false
    trigModeOrig := trigOrig
    echoModeOrig := echoOrig
    trigMode := PI_OUTPUT
    echoMode := PI_INPUT
    trigCbOn := true
    echoCbOn := true
    cb := Pin.echo
    inited := true }

/-- `ranger._cbf(gpio, level, tick)`: the edge handler.  A trigger-gpio edge
with level 0 sets `_triggered = True` and clears `_high`.  An echo-gpio edge
is processed only when `_triggered`: level 1 records `_high = tick`, any
other level computes `_time = tick - _high` (when `_high` is set), clears
`_high` and sets `_ping = True`.  Ticks are pigpio microsecond timestamps;
the Python subtraction of ints is modelled on `Int`. -/
def cbf (s : RState) (gpio : Pin) (level : Nat) (tick : Nat) : RState :=
  match gpio with
  | Pin.trig =>
      if level = 0 then { s with triggered := true, high := none } else s
  | Pin.echo =>
      if s.triggered then
        if level = 1 then { s with high := some tick }
        else
          match s.high with
          | some h => { s with time := some ((tick : Int) - (h : Int)),
                               high := none, ping := true }
          | none => s
      else s

/-- `ranger.cancel()`: if `_inited`, clear `_inited`, call `self._cb.cancel()`
— which deregisters only the callback whose handle `self._cb` holds — and
restore both gpios to the modes captured at construction.  Otherwise do
nothing. -/
def cancel (s : RState) : RState :=
  if s.inited then
    let s1 := { s with inited := false }
    let s2 :=
      match s1.cb with
      | Pin.trig => { s1 with trigCbOn := false }
      | Pin.echo => { s1 with echoCbOn := false }
    { s2 with trigMode := s2.trigModeOrig, echoMode := s2.echoModeOrig }
  else s

/-- One asynchronous happening observed by the polling loop of `read`:
either pigpio delivers an edge `(gpio, level, tick)`, or another thread
calls `cancel()` on the instance. -/
inductive Happening where
  | edge : Pin → Nat → Nat → Happening
  | cancelCall : Happening
deriving DecidableEq

/-- Effect of one happening on the state.  An edge on a gpio invokes `_cbf`
only while the callback registered on that gpio is still registered with
pigpio; a concurrent `cancel()` call runs `cancel`. -/
def deliver (s : RState) (h : Happening) : RState :=
  match h with
  | Happening.edge Pin.trig level tick =>
      if s.trigCbOn then cbf s Pin.trig level tick else s
  | Happening.edge Pin.echo level tick =>
      if s.echoCbOn then cbf s Pin.echo level tick else s
  | Happening.cancelCall => cancel s

/-- The polling loop of `ranger.read`: `while not self._ping:` — at each
check, if `_ping` is set, exit the loop and return `self._time`; otherwise,
when the happening list is exhausted, the 3-second deadline has elapsed and
the loop returns the sentinel `20000`; otherwise the next happening occurs
(during `time.sleep(0.001)`) and polling continues.  The loop tests only
`_ping` and the deadline — it never re-checks `_inited`. -/
def pollEvents : RState → List Happening → Option Int × RState
  | s, [] => if s.ping then (s.time, s) else (some 20000, s)
  | s, h :: rest =>
      if s.ping then (s.time, s) else pollEvents (deliver s h) rest

/-- `ranger.read()`: if `_inited`, clear `_ping`, pulse the trigger gpio
(`pi.gpio_trigger`; the resulting trigger edges come back through the
callback and are part of the happening list), and poll until `_ping` or the
3-second deadline; if not `_inited`, return `None` immediately. -/
def read (s : RState) (hs : List Happening) : Option Int × RState :=
  if s.inited then pollEvents { s with ping := false } hs else (none, s)

/-- The states the shared fields pass through during one `read`: the state
after `self._ping = False`, followed by the state after each happening.
The polling loop observes exactly these states. -/
def pollStates (s : RState) (hs : List Happening) : List RState :=
  List.scanl deliver s hs

/-- Python `round(x, 3)` applied to an exactly represented value: round
half to even at the third decimal.  (All values the claims evaluate it at
are exact, so IEEE-double noise of the source plays no role there.) -/
def roundHalfEven (x : ℚ) : Int :=
  let f := Int.floor x
  let r := x - (f : ℚ)
  if r < 1 / 2 then f
  else if 1 / 2 < r then f + 1
  else if f % 2 = 0 then f else f + 1

/-- Rounding to three decimal places, as `round(_, 3)` in the source. -/
def pyRound3 (x : ℚ) : ℚ := (roundHalfEven (x * 1000) : ℚ) / 1000

/-- `ranger.convert_to_mm(microseconds)`:
`round(((microseconds / 1000000.0) * 343.0 / 2.0) * 1000, 3)`, modelled in
exact rational arithmetic.  Note the source performs no `_inited` check
here. -/
def convert_to_mm (microseconds : ℚ) : ℚ :=
  pyRound3 ((microseconds / 1000000) * 343 / 2 * 1000)

/-- `ranger.read_mm()`: if `_inited`, call `read()`; if the result equals
the sentinel `20000`, call `read()` once more (noise retry); convert the
resulting microseconds to millimeters.  `hs1` and `hs2` are the happenings
of the first and second poll.  The path where a concurrent `cancel` makes
the retry return `None` (on which the source would raise a `TypeError`
inside `convert_to_mm`) is modelled as `none`; no claim evaluates it. -/
def read_mm (s : RState) (hs1 hs2 : List Happening) : Option ℚ × RState :=
  if s.inited then
    let r1 := read s hs1
    let r2 := if r1.1 = some 20000 then read r1.2 hs2 else r1
    (Option.map (fun d : Int => convert_to_mm (d : ℚ)) r2.1, r2.2)
  else (none, s)

/-- `ranger.convert_to_water_level(distance_mm)`: `HEIGHT - distance_mm`
when `_inited`, else `None`.  The configured height `hgt` is the config
value `SonarHeight`. -/
def convert_to_water_level (hgt : ℚ) (s : RState) (distance_mm : ℚ) : Option ℚ :=
  if s.inited then some (hgt - distance_mm) else none

/-- `ranger.read_both()`: if `_inited`, compute `read_mm()` once and return
the pair `(distance_mm, convert_to_water_level(distance_mm))`; else return
`None`.  When `read_mm` yields `None` (possible only after a concurrent
`cancel`, which also makes `convert_to_water_level` return `None`), the
pair is `(None, None)`. -/
def read_both (hgt : ℚ) (s : RState) (hs1 hs2 : List Happening) :
    Option (Option ℚ × Option ℚ) × RState :=
  if s.inited then
    let r := read_mm s hs1 hs2
    match r.1 with
    | some d => (some (some d, convert_to_water_level hgt r.2 d), r.2)
    | none => (some (none, none), r.2)
  else (none, s)

/-- The three attribute stores the echo-low branch of `_cbf` performs, in
source order: `self._time = tick - self._high`, `self._high = None`,
`self._ping = True`.  Under the CPython global interpreter lock each store
is atomic, so a concurrent reader observes the state between stores. -/
def echoLowWrites (d : Int) : List (RState → RState) :=
  [fun s => { s with time := some d },
   fun s => { s with high := none },
   fun s => { s with ping := true }]

/-- All states a concurrent reader can observe while the echo-low branch of
`_cbf` performs its three stores with duration `d`. -/
def writerStates (s : RState) (d : Int) : List RState :=
  List.scanl (fun t f => f t) s (echoLowWrites d)

/-! Helper lemmas about `cancel`, `cbf`, `deliver` and the polling loop. -/

lemma cancel_preserves (s : RState) :
    (cancel s).ping = s.ping ∧ (cancel s).time = s.time ∧
    (cancel s).triggered = s.triggered := by
  by_cases hi : s.inited <;> simp only [cancel, hi, if_true, if_false] <;>
    first
    | exact ⟨rfl, rfl, rfl⟩
    | cases hc : s.cb <;> simp

lemma cbf_triggered_mono (s : RState) (p : Pin) (l t : Nat)
    (h : s.triggered = true) : (cbf s p l t).triggered = true := by
  cases p with
  | trig => by_cases hl : l = 0 <;> simp [cbf, hl, h]
  | echo =>
      by_cases hl : l = 1 <;> cases hh : s.high <;> simp [cbf, hl, h, hh]

lemma deliver_triggered_mono (s : RState) (h : Happening)
    (ht : s.triggered = true) : (deliver s h).triggered = true := by
  cases h with
  | edge p l t =>
      cases p <;> simp only [deliver] <;> split <;>
        first
        | exact cbf_triggered_mono s _ l t ht
        | exact ht
  | cancelCall => exact (cancel_preserves s).2.2.trans ht

lemma pollEvents_triggered : ∀ (hs : List Happening) (s : RState),
    s.triggered = true → (pollEvents s hs).2.triggered = true
  | [], s => by
      intro ht
      by_cases hp : s.ping = true <;> simp [pollEvents, hp, ht]
  | h :: rest, s => by
      intro ht
      by_cases hp : s.ping = true
      · simp [pollEvents, hp, ht]
      · have ih := pollEvents_triggered rest (deliver s h)
          (deliver_triggered_mono s h ht)
        simpa [pollEvents, hp] using ih

lemma cbf_time_ready (s : RState) (p : Pin) (l t : Nat)
    (h : s.ping = true → s.time ≠ none) :
    (cbf s p l t).ping = true → (cbf s p l t).time ≠ none := by
  cases p with
  | trig => by_cases hl : l = 0 <;> simpa [cbf, hl] using h
  | echo =>
      by_cases ht : s.triggered = true <;>
        by_cases hl : l = 1 <;>
          cases hh : s.high <;> simp [cbf, ht, hl, hh] <;> exact h

lemma deliver_time_ready (s : RState) (e : Happening)
    (h : s.ping = true → s.time ≠ none) :
    (deliver s e).ping = true → (deliver s e).time ≠ none := by
  cases e with
  | edge p l t =>
      cases p <;> simp only [deliver] <;> split <;>
        first
        | exact cbf_time_ready s _ l t h
        | exact h
  | cancelCall =>
      simp only [deliver]
      intro hp
      rw [(cancel_preserves s).2.1]
      exact h ((cancel_preserves s).1.symm.trans hp)

lemma pollEvents_fst_ne_none : ∀ (hs : List Happening) (s : RState),
    (s.ping = true → s.time ≠ none) → (pollEvents s hs).1 ≠ none
  | [], s => by
      intro h
      by_cases hp : s.ping = true
      · simpa [pollEvents, hp] using h hp
      · simp [pollEvents, hp]
  | e :: rest, s => by
      intro h
      by_cases hp : s.ping = true
      · simpa [pollEvents, hp] using h hp
      · have ih := pollEvents_fst_ne_none rest (deliver s e)
          (deliver_time_ready s e h)
        simpa [pollEvents, hp] using ih

lemma pollStates_nil (s : RState) : pollStates s [] = [s] := rfl

lemma pollStates_cons (s : RState) (e : Happening) (hs : List Happening) :
    pollStates s (e :: hs) = s :: pollStates (deliver s e) hs := rfl

lemma pollEvents_timeout : ∀ (hs : List Happening) (s : RState),
    (∀ t ∈ pollStates s hs, t.ping = false) →
    (pollEvents s hs).1 = some 20000
  | [], s => by
      intro h
      have hp := h s (by simp [pollStates_nil])
      simp [pollEvents, hp]
  | e :: rest, s => by
      intro h
      have hp : s.ping = false := h s (by simp [pollStates_cons])
      have ih := pollEvents_timeout rest (deliver s e) (fun t ht =>
        h t (by simp only [pollStates_cons, List.mem_cons]; exact Or.inr ht))
      simpa [pollEvents, hp] using ih

lemma pollEvents_success : ∀ (hs : List Happening) (s : RState),
    (∃ t ∈ pollStates s hs, t.ping = true) →
    (pollEvents s hs).1 = (pollEvents s hs).2.time ∧
      (pollEvents s hs).2.ping = true
  | [], s => by
      intro h
      have hp : s.ping = true := by
        simpa [pollStates_nil] using h
      simp [pollEvents, hp]
  | e :: rest, s => by
      intro h
      by_cases hp : s.ping = true
      · simp [pollEvents, hp]
      · have hx : ∃ t ∈ pollStates (deliver s e) rest, t.ping = true := by
          rcases h with ⟨t, ht, hping⟩
          rw [pollStates_cons, List.mem_cons] at ht
          rcases ht with rfl | ht
          · exact absurd hping hp
          · exact ⟨t, ht, hping⟩
        have ih := pollEvents_success rest (deliver s e) hx
        simpa [pollEvents, hp] using ih

/-! Claim theorems. -/

/-- C1: for a trigger-pin low edge at tick `T0`, then an echo-pin high edge
at `T1`, then an echo-pin low edge at `T2` with `T0 < T1 < T2`, delivered to
the edge handler of an active ranger, the resulting `_time` (last duration)
is exactly `T2 - T1`; the right-hand side does not mention `T0`, so the
value is independent of `T1 - T0`. -/
theorem duration_eq_echo_interval (s : RState) (T0 T1 T2 : Nat)
    (_h01 : T0 < T1) (_h12 : T1 < T2) (_hin : s.inited = true) :
    (cbf (cbf (cbf s Pin.trig 0 T0) Pin.echo 1 T1) Pin.echo 0 T2).time
      = some ((T2 : Int) - (T1 : Int)) := by
  simp [cbf]

theorem duration_eq_echo_interval_witness :
    (1 : Nat) < 2 ∧ (2 : Nat) < 7 ∧ (initRanger 7 8).inited = true ∧
    (cbf (cbf (cbf (initRanger 7 8) Pin.trig 0 1) Pin.echo 1 2)
        Pin.echo 0 7).time = some ((7 : Int) - (2 : Int)) :=
  ⟨by decide, by decide, rfl,
    duration_eq_echo_interval (initRanger 7 8) 1 2 7 (by decide) (by decide) rfl⟩

/-- C7: on an active ranger, `convert_to_water_level` returns exactly the
configured height minus the distance, for arbitrary rational distance, with
no clamping — for `D > H` the negative difference is passed through. -/
theorem water_level_no_clamp (hgt D : ℚ) (s : RState)
    (hin : s.inited = true) :
    convert_to_water_level hgt s D = some (hgt - D) := by
  simp [convert_to_water_level, hin]

theorem water_level_no_clamp_witness :
    (initRanger 7 8).inited = true ∧
    convert_to_water_level 100 (initRanger 7 8) 250 = some (100 - 250) ∧
    ((100 : ℚ) - 250 < 0) :=
  ⟨rfl, water_level_no_clamp 100 250 (initRanger 7 8) rfl, by norm_num⟩

/-- C8: an echo-pin high edge followed by an echo-pin low edge delivered to
the edge handler while `_triggered` is false leaves the state completely
unchanged — in particular `_time` is unchanged and `_ping` is not set. -/
theorem unarmed_echo_pair_no_effect (s : RState) (t1 t2 : Nat)
    (h : s.triggered = false) :
    cbf (cbf s Pin.echo 1 t1) Pin.echo 0 t2 = s := by
  simp [cbf, h]

theorem unarmed_echo_pair_no_effect_witness :
    (initRanger 7 8).triggered = false ∧
    cbf (cbf (initRanger 7 8) Pin.echo 1 10) Pin.echo 0 35 = initRanger 7 8 :=
  ⟨rfl, unarmed_echo_pair_no_effect (initRanger 7 8) 10 35 rfl⟩

/-- C4 (counter-evidence, code bug): after `cancel()` on a freshly
constructed ranger, the instance is inactive and both pin modes are
restored to the captured originals, and a second `cancel()` is a no-op —
but only the echo-pin callback is deregistered: `self._cb` was overwritten
in `__init__`, so the trigger-pin callback remains registered, contradicting
the claim that the callbacks on both pins are deregistered. -/
theorem cancel_leaves_trigger_callback :
    (cancel (initRanger 7 8)).inited = false ∧
    (cancel (initRanger 7 8)).echoCbOn = false ∧
    (cancel (initRanger 7 8)).trigCbOn = true ∧
    (cancel (initRanger 7 8)).trigMode = 7 ∧
    (cancel (initRanger 7 8)).echoMode = 8 ∧
    cancel (cancel (initRanger 7 8)) = cancel (initRanger 7 8) := by
  decide

/-- C2: on an active ranger, if `_ping` is observed false at every state the
polling loop passes through (no ping completes before the 3-second
deadline), `read` returns exactly the sentinel `20000`; if the loop passes
through a state with `_ping` set, `read` returns the `_time` (last
duration) field of the state at which it stops, which has `_ping` set. -/
theorem read_returns_duration_or_sentinel (s : RState) (hs : List Happening)
    (hin : s.inited = true) :
    ((∀ t ∈ pollStates { s with ping := false } hs, t.ping = false) →
      (read s hs).1 = some 20000) ∧
    ((∃ t ∈ pollStates { s with ping := false } hs, t.ping = true) →
      (read s hs).1 = (read s hs).2.time ∧ (read s hs).2.ping = true) := by
  constructor
  · intro hall
    simp only [read]
    rw [if_pos hin]
    exact pollEvents_timeout hs _ hall
  · intro hex
    simp only [read]
    rw [if_pos hin]
    exact pollEvents_success hs _ hex

theorem read_returns_duration_or_sentinel_witness :
    (initRanger 7 8).inited = true ∧
    (∃ t ∈ pollStates { initRanger 7 8 with ping := false }
        [Happening.edge Pin.trig 0 5, Happening.edge Pin.echo 1 10,
         Happening.edge Pin.echo 0 35], t.ping = true) ∧
    (read (initRanger 7 8)
        [Happening.edge Pin.trig 0 5, Happening.edge Pin.echo 1 10,
         Happening.edge Pin.echo 0 35]).1 =
      (read (initRanger 7 8)
        [Happening.edge Pin.trig 0 5, Happening.edge Pin.echo 1 10,
         Happening.edge Pin.echo 0 35]).2.time :=
  ⟨rfl, by decide,
    ((read_returns_duration_or_sentinel (initRanger 7 8)
      [Happening.edge Pin.trig 0 5, Happening.edge Pin.echo 1 10,
       Happening.edge Pin.echo 0 35] rfl).2 (by decide)).1⟩

/-- C3 (counterexample): a `cancel()` call arriving while `read` is polling
on a freshly constructed ranger is not observed by the loop — `read` still
returns the sentinel `20000` at the deadline, not the absent value `none`
the claim requires. -/
theorem read_ignores_cancel_cex :
    (read (initRanger 7 8) [Happening.cancelCall]).1 = some 20000 ∧
    (read (initRanger 7 8) [Happening.cancelCall]).1 ≠ none := by
  decide

/-- C3 (amended): the polling loop of `read` tests only `_ping` and the
deadline, never `_inited`, so a `cancel()` arriving mid-read is ignored by
the loop: the read never returns the absent value, and when no further
happening completes a ping it polls until the deadline and returns the
sentinel `20000`. -/
theorem read_in_flight_cancel_continues (s : RState) (hs : List Happening)
    (hin : s.inited = true) :
    (read s (Happening.cancelCall :: hs)).1 ≠ none ∧
    (read s [Happening.cancelCall]).1 = some 20000 := by
  have key : ∀ s0 : RState, s0.ping = false →
      (pollEvents s0 [Happening.cancelCall]).1 = some 20000 := by
    intro s0 hp0
    have hc : (cancel s0).ping = false := ((cancel_preserves s0).1).trans hp0
    simp [pollEvents, deliver, hp0, hc]
  constructor
  · simp only [read]
    rw [if_pos hin]
    exact pollEvents_fst_ne_none _ _ (by simp)
  · simp only [read]
    rw [if_pos hin]
    exact key _ rfl

theorem read_in_flight_cancel_continues_witness :
    (initRanger 7 8).inited = true ∧
    (read (initRanger 7 8) [Happening.cancelCall]).1 = some 20000 :=
  ⟨rfl, (read_in_flight_cancel_continues (initRanger 7 8) [] rfl).2⟩

/-- C5 (counterexample): when both the initial `read` and the retry time
out, `read_mm` on a fresh ranger returns `3430` millimeters — about 3.43
meters, far below the 3 430 000 millimeters that "approximately 3.43
kilometers" would be. -/
theorem read_mm_sentinel_is_3430mm_cex :
    (read_mm (initRanger 7 8) [] []).1 = some 3430 ∧
    (3430 : ℚ) < 3430000 := by
  constructor
  · norm_num [read_mm, read, pollEvents, initRanger, convert_to_mm,
      pyRound3, roundHalfEven]
  · norm_num

/-- C5 (amended): when both the initial `read` and the single retry inside
`read_mm` return the timeout sentinel, `read_mm` returns the
sentinel-derived implausible distance `convert_to_mm 20000 = 3430`
millimeters (about 3.43 meters) rather than an absent value or an explicit
failure indicator. -/
theorem read_mm_double_timeout (s : RState) (hin : s.inited = true) :
    (read_mm s [] []).1 = some (convert_to_mm 20000) ∧
    convert_to_mm 20000 = 3430 := by
  constructor
  · simp [read_mm, read, pollEvents, hin]
  · norm_num [convert_to_mm, pyRound3, roundHalfEven]

theorem read_mm_double_timeout_witness :
    (initRanger 3 4).inited = true ∧
    (read_mm (initRanger 3 4) [] []).1 = some (convert_to_mm 20000) :=
  ⟨rfl, (read_mm_double_timeout (initRanger 3 4) rfl).1⟩

/-- C6: once `_inited` is false, `read`, `read_mm`,
`convert_to_water_level` and `read_both` all return the absent value
immediately (each checks the flag first and returns `None`). -/
theorem post_teardown_all_none (hgt D : ℚ) (s : RState)
    (hs1 hs2 hs3 hs4 hs5 : List Happening) (h : s.inited = false) :
    (read s hs1).1 = none ∧
    (read_mm s hs2 hs3).1 = none ∧
    convert_to_water_level hgt s D = none ∧
    (read_both hgt s hs4 hs5).1 = none := by
  refine ⟨?_, ?_, ?_, ?_⟩ <;>
    simp [read, read_mm, convert_to_water_level, read_both, h]

theorem post_teardown_all_none_witness :
    (cancel (initRanger 7 8)).inited = false ∧
    (read (cancel (initRanger 7 8)) []).1 = none ∧
    (read_mm (cancel (initRanger 7 8)) [] []).1 = none ∧
    convert_to_water_level 2000 (cancel (initRanger 7 8)) 50 = none ∧
    (read_both 2000 (cancel (initRanger 7 8)) [] []).1 = none :=
  ⟨by decide,
    post_teardown_all_none 2000 50 (cancel (initRanger 7 8))
      [] [] [] [] [] (by decide)⟩

/-- C9: the echo-low branch of the edge handler stores `_time` before it
sets `_ping`, so across every intermediate state a concurrent reader can
observe during the handler's three attribute stores (starting from a state
where the reader had cleared `_ping`), seeing `_ping = true` implies
`_time` already holds the freshly written duration `d` — never a stale or
partially written value. -/
theorem ping_implies_fresh_time (s : RState) (d : Int)
    (h : s.ping = false) :
    ∀ t ∈ writerStates s d, t.ping = true → t.time = some d := by
  intro t ht
  simp only [writerStates, echoLowWrites, List.scanl, List.mem_cons,
    List.mem_singleton] at ht
  rcases ht with rfl | rfl | rfl | rfl | hfalse
  · intro hp; exact absurd hp (by simp [h])
  · intro hp; exact absurd hp (by simp [h])
  · intro hp; exact absurd hp (by simp [h])
  · intro _; rfl
  · exact absurd hfalse (List.not_mem_nil t)

theorem ping_implies_fresh_time_witness :
    (initRanger 7 8).ping = false ∧
    ({ initRanger 7 8 with time := some 25, high := none, ping := true }
        : RState).time = some 25 :=
  ⟨rfl,
    ping_implies_fresh_time (initRanger 7 8) 25 rfl
      { initRanger 7 8 with time := some 25, high := none, ping := true }
      (by decide) rfl⟩

/-- C10: `_triggered` is monotone after construction — it starts false, the
edge handler never clears it (the only assignment sets it true, on a
trigger-pin low edge), `cancel` leaves it untouched, `read` leaves it set,
and once it is set every echo-high/echo-low pair delivered to the handler
completes a ping (`_ping` becomes true) rather than being ignored. -/
theorem armed_monotone (s : RState) (p : Pin)
    (level tick t1 t2 trigOrig echoOrig : Nat) (hs : List Happening)
    (h : s.triggered = true) :
    (initRanger trigOrig echoOrig).triggered = false ∧
    (cbf s p level tick).triggered = true ∧
    (cancel s).triggered = true ∧
    (read s hs).2.triggered = true ∧
    (cbf (cbf s Pin.echo 1 t1) Pin.echo 0 t2).ping = true := by
  refine ⟨rfl, cbf_triggered_mono s p level tick h,
    (cancel_preserves s).2.2.trans h, ?_, by simp [cbf, h]⟩
  by_cases hin : s.inited = true
  · simp only [read, hin, if_true]
    exact pollEvents_triggered hs _ h
  · simp only [read, hin, if_false]
    exact h

theorem armed_monotone_witness :
    (cbf (initRanger 7 8) Pin.trig 0 5).triggered = true ∧
    (cbf (cbf (cbf (initRanger 7 8) Pin.trig 0 5) Pin.echo 1 10)
        Pin.echo 0 35).ping = true :=
  ⟨rfl,
    (armed_monotone (cbf (initRanger 7 8) Pin.trig 0 5) Pin.echo 1 2 10 35
      3 4 [] rfl).2.2.2.2⟩

end PiGarden
